import Mathlib

/-!
Verification development for the MiniMax-M2 interleaved-thinking demo.

The repository has two Python source files:
* `src/tools.py` — three markdown-section lookup tools over static documents;
* `src/demo_runner.py` — the conversation loop driving a chat-completion
  endpoint, dispatching tool calls, logging a transcript, and reporting cost.

The Python functions are shallowly embedded below.  File I/O is externalised:
each tool takes the text of its markdown document as an explicit `doc`
argument (the Python reads the file from disk).  The conversation loop is
embedded as a function over a script — the list of endpoint responses — since
the remote endpoint is an external collaborator.  String operations are
implemented over `List Char` with structural recursion so that all
definitions evaluate by kernel reduction.
-/

namespace MiniMaxDemo

/-! Python string builtins, modelled over `List Char`.  The documents in this
repository are `\n`-terminated ASCII markdown, so `str.splitlines` is
modelled as splitting on `\n` alone. -/

/-- Characters stripped by Python `str.strip()` (ASCII whitespace). -/
def isWsChar (c : Char) : Bool :=
  c = ' ' || c = '\t' || c = '\n' || c = '\r' || c = Char.ofNat 11 || c = Char.ofNat 12

/-- Python `str.strip()`. -/
def pyStrip (s : String) : String :=
  String.mk (((s.data.dropWhile isWsChar).reverse.dropWhile isWsChar).reverse)

/-- Lower-case one ASCII character (Python `str.lower` on the ASCII range). -/
def pyLowerChar (c : Char) : Char :=
  if 'A' ≤ c ∧ c ≤ 'Z' then Char.ofNat (c.toNat + 32) else c

/-- Python `str.lower()` (ASCII). -/
def pyLower (s : String) : String :=
  String.mk (s.data.map pyLowerChar)

/-- Python `str.startswith(pre)`. -/
def pyStartsWith (s pre : String) : Bool :=
  pre.data.isPrefixOf s.data

/-- Split a character list at every `\n`, keeping empty fields
(the semantics of Python `str.split("\n")`). -/
def splitNl : List Char → List Char → List (List Char)
  | [], acc => [acc.reverse]
  | c :: rest, acc =>
      if c = '\n' then acc.reverse :: splitNl rest []
      else splitNl rest (c :: acc)

/-- Python `str.splitlines()` for `\n`-separated text: like splitting on
`\n` but without a trailing empty field, and `[]` on the empty string. -/
def pySplitlines (s : String) : List String :=
  let fields := splitNl s.data []
  let fields := if fields.getLast? = some [] then fields.dropLast else fields
  fields.map String.mk

/-- Split a character list on the three-character separator `a b c`,
leftmost non-overlapping occurrences, keeping empty fields
(the semantics of Python `str.split(sep)` for a 3-character `sep`). -/
def splitSep3 (a b c : Char) : List Char → List Char → List (List Char)
  | x :: y :: z :: rest, acc =>
      if x = a ∧ y = b ∧ z = c then acc.reverse :: splitSep3 a b c rest []
      else splitSep3 a b c (y :: z :: rest) (x :: acc)
  | [x, y], acc => [(y :: x :: acc).reverse]
  | [x], acc => [(x :: acc).reverse]
  | [], acc => [acc.reverse]

/-- Python `raw.split("## ")` as used by `get_component_spec`. -/
def pySplitHH (s : String) : List String :=
  (splitSep3 (Char.ofNat 35) (Char.ofNat 35) ' ' s.data []).map String.mk

/-- Does `needle` occur in the character list (Python `needle in hay`)? -/
def chContains (needle : List Char) : List Char → Bool
  | [] => needle.isEmpty
  | c :: rest => needle.isPrefixOf (c :: rest) || chContains needle rest

/-- Python `needle in hay` for strings. -/
def strContains (hay needle : String) : Bool :=
  chContains needle.data hay.data

/-- Python `"\n".join(lines)`. -/
def joinNl (lines : List String) : String :=
  String.mk (List.intercalate [Char.ofNat 10] (lines.map String.data))

/-- Python `s[:n]` (slice by code points). -/
def pyTake (s : String) (n : Nat) : String :=
  String.mk (s.data.take n)

/-- Python `s[3:]` as used on `"## heading"` lines. -/
def pyDrop3 (s : String) : String :=
  String.mk (s.data.drop 3)

/-! Ordered dictionaries.  Python dicts preserve insertion order and keep the
original position when an existing key is reassigned; they are modelled as
association lists. -/

/-- `d[k] = v`: reassign in place if the key exists, otherwise append. -/
def alistSet (k : String) (v : List String) :
    List (String × List String) → List (String × List String)
  | [] => [(k, v)]
  | (k₁, v₁) :: rest =>
      if k₁ = k then (k, v) :: rest else (k₁, v₁) :: alistSet k v rest

/-- `d.setdefault(k, []).append(x)`. -/
def alistPush (k : String) (x : String) :
    List (String × List String) → List (String × List String)
  | [] => [(k, [x])]
  | (k₁, v₁) :: rest =>
      if k₁ = k then (k₁, v₁ ++ [x]) :: rest else (k₁, v₁) :: alistPush k x rest

/-! The three tools of `src/tools.py`, each with an inductive result
distinguishing the two `return` sites of the Python function, and a payload
function giving the exact fields of the `json.dumps` payload. -/

/-- The line loop of `_load_markdown_sections` (src/tools.py lines 25-30):
an `## ` heading line starts a fresh section keyed by the lower-cased
stripped heading text; any other line is appended to the current section. -/
def sectionScan : List String → String → List (String × List String) →
    List (String × List String)
  | [], _, acc => acc
  | line :: rest, currentKey, acc =>
      if pyStartsWith line "## " then
        let k := pyLower (pyStrip (pyDrop3 line))
        sectionScan rest k (alistSet k [] acc)
      else
        sectionScan rest currentKey (alistPush currentKey line acc)

/-- `_load_markdown_sections` (src/tools.py lines 18-36): split a markdown
document into sections keyed by h2 headings, dropping sections whose line
list is empty, joining and stripping the rest. -/
def load_markdown_sections (content : String) : List (String × String) :=
  (sectionScan (pySplitlines content) "introduction" [("introduction", [])]).filterMap
    (fun kv => if kv.2.isEmpty then none else some (kv.1, pyStrip (joinNl kv.2)))

/-- Result of `get_design_tokens`: the two `return` statements at
src/tools.py lines 52 and 58. -/
inductive TokensResult where
  | found (sectionKey tokens : String)
  | notFound (category : String) (availableKeys : List String)
deriving DecidableEq

/-- `get_design_tokens` (src/tools.py lines 39-63), with the text of
`design_system.md` passed as `doc` (the Python reads it from disk). -/
def get_design_tokens (doc category : String) : TokensResult :=
  let data := load_markdown_sections doc
  let normalized := pyLower category
  match data.find? (fun kv => strContains kv.1 normalized) with
  | some kv => .found kv.1 (pyTake kv.2 1200)
  | none => .notFound category (data.map Prod.fst)

/-- A single-quote character, used by the Python f-string and `repr`. -/
def sq : String := String.singleton (Char.ofNat 39)

/-- Python `repr` of a plain string (no escapes needed for section keys). -/
def pyStrRepr (s : String) : String := sq ++ s ++ sq

/-- Python `repr` of a list of plain strings, as interpolated by line 61 of
src/tools.py. -/
def pyListRepr (keys : List String) : String :=
  "[" ++ String.intercalate ", " (keys.map pyStrRepr) ++ "]"

/-- The not-found message of `get_design_tokens` (src/tools.py line 61). -/
def availableMsg (category : String) (keys : List String) : String :=
  "No section matched " ++ pyStrRepr category ++ ". Available: " ++ pyListRepr keys

/-- Fields of the JSON payload returned by `get_design_tokens`. -/
structure TokensPayload where
  sectionKey : String
  tokens : String
deriving DecidableEq

/-- The exact payload serialized by `get_design_tokens`. -/
def tokensPayload : TokensResult → TokensPayload
  | .found k v => ⟨k, v⟩
  | .notFound category keys => ⟨"not_found", availableMsg category keys⟩

/-- Result of `get_component_spec`: the `return` at line 81 and the
fall-through `return` at line 82 of src/tools.py. -/
inductive SpecResult where
  | found (component spec : String)
  | notFound (component : String)
deriving DecidableEq

/-- The block loop of `get_component_spec` (src/tools.py lines 75-81).
`none` models the `ValueError` Python raises when a block produced by the
split is empty: `header, *body = block.splitlines()` on an empty list. -/
def specScan (normalized component : String) : List String → Option SpecResult
  | [] => some (.notFound component)
  | block :: rest =>
      match pySplitlines block with
      | [] => none
      | header :: body =>
          if header = "" then specScan normalized component rest
          else if pyStartsWith (pyLower (pyStrip header)) normalized then
            some (.found (pyStrip header) (pyTake (pyStrip (joinNl body)) 1600))
          else specScan normalized component rest

/-- `get_component_spec` (src/tools.py lines 66-82), with the text of
`component_specs.md` passed as `doc`. -/
def get_component_spec (doc component : String) : Option SpecResult :=
  specScan (pyLower (pyStrip component)) component (pySplitHH doc)

/-- Fields of the JSON payload returned by `get_component_spec`. -/
structure SpecPayload where
  component : String
  spec : String
deriving DecidableEq

/-- The exact payload serialized by `get_component_spec`. -/
def specPayload : SpecResult → SpecPayload
  | .found c s => ⟨c, s⟩
  | .notFound c => ⟨c, "Component not found in specs document."⟩

/-- Result of `get_pattern_guidance`: the `return` statements at lines 91
and 92 of src/tools.py. -/
inductive PatternResult where
  | found (topic guidance : String)
  | notFound (topic : String)
deriving DecidableEq

/-- `get_pattern_guidance` (src/tools.py lines 85-92), with the text of
`code_patterns.md` passed as `doc`. -/
def get_pattern_guidance (doc topic : String) : PatternResult :=
  let sections := load_markdown_sections doc
  let normalized := pyLower topic
  match sections.find?
      (fun kv => strContains kv.1 normalized || strContains (pyLower kv.2) normalized) with
  | some kv => .found kv.1 (pyTake kv.2 1600)
  | none => .notFound topic

/-- Fields of the JSON payload returned by `get_pattern_guidance`. -/
structure PatternPayload where
  topic : String
  guidance : String
deriving DecidableEq

/-- The exact payload serialized by `get_pattern_guidance`. -/
def patternPayload : PatternResult → PatternPayload
  | .found t g => ⟨t, g⟩
  | .notFound t => ⟨t, "No matching pattern found."⟩

/-- Modelled from the spec: the repository's `component_specs.md` document
lives under `claude_minimax/examples/sample_project/`, which is not part of
`src/`.  Per the spec (§6, §8 and the tool description in
src/demo_runner.py), it is a markdown document with `## ` sections for the
components Button, Card, Input, Modal and Alert. -/
def componentSpecsDoc : String :=
  "# Component Specs\n\nShared UI component contracts for the sample project.\n\n" ++
  "## Button\nVariants: primary, secondary, ghost.\nSizes: sm, md, lg.\n" ++
  "States: default, hover, active, disabled, loading.\n\n" ++
  "## Card\nPadding: 16px. Radius: 8px. Shadow: level-1.\n\n" ++
  "## Input\nLabel is required. Error text is shown below the field.\n\n" ++
  "## Modal\nFocus is trapped while open. Escape closes.\n\n" ++
  "## Alert\nRoles: info, success, warning, error.\n"

/-! The conversation loop of `src/demo_runner.py`. -/

/-- The cost rate `0.3 / 1_000_000` dollars per input token
(src/demo_runner.py line 47), as an exact rational; the sign behaviour
proved below is independent of the binary floating-point representation. -/
def COST_PER_INPUT_TOKEN : ℚ := 3 / 10000000

/-- The cost rate `1.2 / 1_000_000` dollars per output token
(src/demo_runner.py line 48). -/
def COST_PER_OUTPUT_TOKEN : ℚ := 12 / 10000000

/-- `calc_cost` (src/demo_runner.py lines 87-90): input cost, output cost
and their sum.  The Python annotates the counts as `int`, so they are
embedded as integers. -/
def calc_cost (prompt_tokens completion_tokens : Int) : ℚ × ℚ × ℚ :=
  let input_cost := prompt_tokens * COST_PER_INPUT_TOKEN
  let output_cost := completion_tokens * COST_PER_OUTPUT_TOKEN
  (input_cost, output_cost, input_cost + output_cost)

/-- Decoded tool arguments: the demo's tool-call argument strings are flat
JSON objects with string keys and string values. -/
abbrev ToolArgs := List (String × String)

/-- Skip JSON whitespace. -/
def skipWs : List Char → List Char
  | c :: rest =>
      if c = ' ' || c = '\n' || c = '\t' || c = '\r' then skipWs rest
      else c :: rest
  | [] => []

/-- Parse the remainder of a JSON string after its opening quote (the
demo's argument strings contain no escape sequences). -/
def parseStr : List Char → Option (String × List Char)
  | [] => none
  | c :: rest =>
      if c = '"' then some ("", rest)
      else
        match parseStr rest with
        | some (s, r) => some (String.singleton c ++ s, r)
        | none => none

/-- Parse the members of a JSON object after its opening brace, returning
the fields and the characters following the closing brace.  Fuelled to make
the recursion structural. -/
def parseMembers : Nat → List Char → Option (List (String × String) × List Char)
  | 0, _ => none
  | fuel + 1, cs =>
      match skipWs cs with
      | '"' :: r₁ =>
          match parseStr r₁ with
          | none => none
          | some (k, r₂) =>
              match skipWs r₂ with
              | ':' :: r₃ =>
                  match skipWs r₃ with
                  | '"' :: r₄ =>
                      match parseStr r₄ with
                      | none => none
                      | some (v, r₅) =>
                          match skipWs r₅ with
                          | ',' :: r₆ =>
                              match parseMembers fuel r₆ with
                              | some (ms, r₇) => some ((k, v) :: ms, r₇)
                              | none => none
                          | c :: r₆ =>
                              if c = Char.ofNat 125 then some ([(k, v)], r₆) else none
                          | [] => none
                  | _ => none
              | _ => none
      | _ => none

/-- Models the fragment of Python `json.loads` exercised by the demo's
tool-call argument strings: a whitespace-padded JSON object with string
keys and string values (possibly empty).  Anything else is a decode
error, which Python raises as `JSONDecodeError`. -/
def pyJsonLoads (s : String) : Except String ToolArgs :=
  match skipWs s.data with
  | c :: rest =>
      if c = Char.ofNat 123 then
        match skipWs rest with
        | c₂ :: rest₂ =>
            if c₂ = Char.ofNat 125 then
              if skipWs rest₂ = [] then .ok [] else .error "Extra data"
            else
              match parseMembers (rest.length + 1) rest with
              | some (ms, r) =>
                  if skipWs r = [] then .ok ms else .error "Extra data"
              | none => .error "Expecting property name enclosed in double quotes"
        | [] => .error "Expecting property name enclosed in double quotes"
      else .error "Expecting value"
  | [] => .error "Expecting value"

/-- The defaulting of src/demo_runner.py line 249:
`tool_call.function.arguments or "\x7b\x7d"` — a missing (`None`) or empty
argument string is replaced by the empty-object literal before decoding. -/
def argString (arguments : Option String) : String :=
  match arguments with
  | none => "\x7b\x7d"
  | some s => if s = "" then "\x7b\x7d" else s

/-- One tool-call request of a model response: identifier, tool name, and
the JSON-encoded argument string (`none` models a missing field). -/
structure ToolCallReq where
  id : String
  name : String
  arguments : Option String
deriving DecidableEq

/-- One endpoint response: the reasoning segments (the loop uses only the
first), optional content, the ordered tool-call requests, and the usage
counters (absent counters default to zero at the completion record). -/
structure ModelResponse where
  reasoningDetails : List String
  content : Option String
  toolCalls : List ToolCallReq
  promptTokens : Option Nat
  completionTokens : Option Nat
deriving DecidableEq

/-- A message of the conversation history (src/demo_runner.py lines
173-176, 232-238, 258-264).  An assistant message with an empty tool-call
list models the record without a `tool_calls` key. -/
inductive Message where
  | system (content : String)
  | user (content : String)
  | assistant (content : String) (toolCalls : List ToolCallReq)
  | tool (toolCallId : String) (content : String)
deriving DecidableEq

/-- One transcript record, as written by `log_event` (src/demo_runner.py
lines 222-230, 265, 286-293). -/
inductive LogRecord where
  | assistantRec (step : Nat) (thinking : String) (content : Option String)
      (toolCalls : List ToolCallReq)
  | toolResultRec (step : Nat) (tool : String) (result : String)
  | completionRec (step : Nat) (content : Option String)
      (promptTokens completionTokens : Nat)
deriving DecidableEq

/-- The mutable state of one run: the counters initialised at lines
188-190 of src/demo_runner.py, the message history, and the transcript
log (an append-only file, modelled as the list of records written). -/
structure RunState where
  step : Nat
  toolInvocations : Nat
  thinkingSegments : Nat
  messages : List Message
  log : List LogRecord
deriving DecidableEq

/-- The tool registry interface: name to handler.  A handler takes the
decoded arguments and returns the result string, or fails (a raising tool
callable). -/
def Registry := String → Option (ToolArgs → Except String String)

/-- Outcome of the tool-call phase of one turn: either the updated state,
or a fatal error together with the state at the moment of the raise (the
transcript records written so far persist on disk). -/
inductive ToolPhase where
  | ok (st : RunState)
  | fatal (msg : String) (st : RunState)
deriving DecidableEq

/-- The state carried by a `ToolPhase`. -/
def ToolPhase.state : ToolPhase → RunState
  | .ok st => st
  | .fatal _ st => st

/-- The tool-call loop of one turn (src/demo_runner.py lines 247-267):
for each request in order — decode the argument string (a decode failure
raises), increment the tool-invocation counter, look up the handler (a
missing name raises `RuntimeError`), invoke it (it may raise), append the
tool message, and write the `tool_result` transcript record. -/
def processToolCalls (reg : Registry) : RunState → List ToolCallReq → ToolPhase
  | st, [] => .ok st
  | st, tc :: rest =>
      match pyJsonLoads (argString tc.arguments) with
      | .error e => .fatal e st
      | .ok args =>
          let st₁ : RunState := { st with toolInvocations := st.toolInvocations + 1 }
          match reg tc.name with
          | none => .fatal ("No handler registered for tool " ++ tc.name) st₁
          | some handler =>
              match handler args with
              | .error e => .fatal e st₁
              | .ok result =>
                  processToolCalls reg
                    { st₁ with
                      messages := st₁.messages ++ [Message.tool tc.id result],
                      log := st₁.log ++ [LogRecord.toolResultRec st₁.step tc.name result] }
                    rest

/-- Outcome of a run: normal termination, a fatal error, or exhaustion of
the response script (the model would be asked for another turn). -/
inductive RunOutcome where
  | finished (st : RunState)
  | fatal (msg : String) (st : RunState)
  | outOfResponses (st : RunState)
deriving DecidableEq

/-- The state carried by a `RunOutcome`. -/
def RunOutcome.state : RunOutcome → RunState
  | .finished st => st
  | .fatal _ st => st
  | .outOfResponses st => st

/-- Did the run terminate normally? -/
def RunOutcome.isFinished : RunOutcome → Bool
  | .finished _ => true
  | _ => false

/-- The head of each turn (src/demo_runner.py lines 194-244): increment
the step counter, take the first reasoning segment (or the empty string),
write the `assistant` transcript record, append the assistant message
(content defaulted to the empty string, tool calls kept when present),
and count a thinking segment when the reasoning text is non-empty. -/
def assistantPhase (st : RunState) (resp : ModelResponse) : RunState :=
  let thinking := resp.reasoningDetails.headD ""
  let st₁ : RunState := { st with step := st.step + 1 }
  let st₂ : RunState :=
    { st₁ with log := st₁.log ++
        [LogRecord.assistantRec st₁.step thinking resp.content resp.toolCalls] }
  let st₃ : RunState :=
    { st₂ with messages := st₂.messages ++
        [Message.assistant (resp.content.getD "") resp.toolCalls] }
  if thinking = "" then st₃
  else { st₃ with thinkingSegments := st₃.thinkingSegments + 1 }

/-- The terminal turn's tail (src/demo_runner.py lines 286-293): write
the one `completion` record, with absent usage counters defaulted to
zero. -/
def completionState (st : RunState) (resp : ModelResponse) : RunState :=
  { st with log := st.log ++
      [LogRecord.completionRec st.step resp.content
        (resp.promptTokens.getD 0) (resp.completionTokens.getD 0)] }

/-- The `while True` loop of `run_demo` (src/demo_runner.py lines
193-311), driven by the script of endpoint responses.  Each turn runs the
assistant phase, then either processes the tool calls and continues, or —
when the response carries no tool calls — writes the single `completion`
record and stops. -/
def runLoop (reg : Registry) : RunState → List ModelResponse → RunOutcome
  | st, [] => .outOfResponses st
  | st, resp :: rest =>
      let st₄ := assistantPhase st resp
      if resp.toolCalls.isEmpty then
        .finished (completionState st₄ resp)
      else
        match processToolCalls reg st₄ resp.toolCalls with
        | .fatal e st' => .fatal e st'
        | .ok st' => runLoop reg st' rest

/-- The state at the start of a run (src/demo_runner.py lines 173-176 and
188-190): history seeded with the system and user prompts, all three
counters zero, transcript empty. -/
def initialState (systemPrompt userPrompt : String) : RunState :=
  { step := 0
    toolInvocations := 0
    thinkingSegments := 0
    messages := [Message.system systemPrompt, Message.user userPrompt]
    log := [] }

/-- The outcome of invoking one tool call in isolation: `some` result when
the argument string decodes, the name resolves, and the handler succeeds;
`none` when any of the three fails. -/
def callTool (reg : Registry) (tc : ToolCallReq) : Option String :=
  match pyJsonLoads (argString tc.arguments) with
  | .error _ => none
  | .ok args =>
      match reg tc.name with
      | none => none
      | some handler =>
          match handler args with
          | .error _ => none
          | .ok result => some result

/-- Is a transcript record of kind `completion`? -/
def isCompletionRec : LogRecord → Bool
  | .completionRec _ _ _ _ => true
  | _ => false

/-- How many `completion` records a transcript holds. -/
def completionCount (log : List LogRecord) : Nat :=
  log.countP isCompletionRec

/-- Pointwise order on the three run counters. -/
def countersLE (a b : RunState) : Prop :=
  a.step ≤ b.step ∧ a.toolInvocations ≤ b.toolInvocations ∧
    a.thinkingSegments ≤ b.thinkingSegments

/-- A one-section document used to evaluate the tools at concrete inputs. -/
def docColors : String := "## Colors\nprimary: blue\n"

/-- A small two-block document whose split on `## ` has no empty block. -/
def docSpecsSmall : String := "# T\n## Colors\nred"

/-! Helper lemmas. -/

/-- The empty string occurs in every string (Python `"" in s`). -/
theorem strContains_empty (hay : String) : strContains hay "" = true := by
  show chContains [] hay.data = true
  cases hay.data <;> rfl

/-- The empty string is a prefix of every string (Python `s.startswith("")`). -/
theorem pyStartsWith_empty (s : String) : pyStartsWith s "" = true := by
  show List.isPrefixOf [] s.data = true
  cases s.data <;> rfl

/-- When no block header matches, the block loop of `get_component_spec`
falls through to its not-found return, provided every block is non-empty
(an empty block raises instead). -/
theorem specScan_notFound (normalized component : String) (blocks : List String)
    (hnil : ∀ b ∈ blocks, pySplitlines b ≠ [])
    (hno : ∀ b ∈ blocks,
      pyStartsWith (pyLower (pyStrip ((pySplitlines b).headD ""))) normalized = false) :
    specScan normalized component blocks = some (.notFound component) := by
  induction blocks with
  | nil => rfl
  | cons b rest ih =>
      have h1 := hnil b (List.mem_cons_self b rest)
      have h2 := hno b (List.mem_cons_self b rest)
      cases heq : pySplitlines b with
      | nil => exact absurd heq h1
      | cons header body =>
          rw [heq] at h2
          simp only [List.headD_cons] at h2
          have ih' := ih (fun x hx => hnil x (List.mem_cons_of_mem b hx))
            (fun x hx => hno x (List.mem_cons_of_mem b hx))
          by_cases hh : header = ""
          · simp only [specScan, heq, hh, if_pos rfl]
            exact ih'
          · simpa only [specScan, heq, if_neg hh, h2, Bool.false_eq_true,
              if_false] using ih'

/-- With the empty query, the block loop of `get_component_spec` matches
the first block whose header is non-empty, provided every block is
non-empty. -/
theorem specScan_found_empty_query (component : String) (blocks : List String)
    (hnil : ∀ b ∈ blocks, pySplitlines b ≠ [])
    (hsome : ∃ b ∈ blocks, (pySplitlines b).headD "" ≠ "") :
    ∃ k s, specScan "" component blocks = some (.found k s) := by
  induction blocks with
  | nil => simp at hsome
  | cons b rest ih =>
      have h1 := hnil b (List.mem_cons_self b rest)
      cases heq : pySplitlines b with
      | nil => exact absurd heq h1
      | cons header body =>
          by_cases hh : header = ""
          · have hrest : ∃ b ∈ rest, (pySplitlines b).headD "" ≠ "" := by
              rcases hsome with ⟨b', hb', hne⟩
              rcases List.mem_cons.mp hb' with hb | hb
              · subst hb; rw [heq] at hne; simp [hh] at hne
              · exact ⟨b', hb, hne⟩
            have ih' := ih (fun x hx => hnil x (List.mem_cons_of_mem b hx)) hrest
            simpa only [specScan, heq, hh, if_pos rfl] using ih'
          · have hpre : pyStartsWith (pyLower (pyStrip header)) "" = true :=
              pyStartsWith_empty _
            refine ⟨pyStrip header, pyTake (pyStrip (joinNl body)) 1600, ?_⟩
            simp [specScan, heq, hh, hpre]

/-- Unfolding `processToolCalls` at a request whose argument string fails
to decode. -/
theorem processToolCalls_cons_decodeErr (reg : Registry) (st : RunState)
    (tc : ToolCallReq) (rest : List ToolCallReq) (e : String)
    (hd : pyJsonLoads (argString tc.arguments) = .error e) :
    processToolCalls reg st (tc :: rest) = .fatal e st := by
  simp [processToolCalls, hd]

/-- Unfolding `processToolCalls` at a request whose tool name is not
registered: the decode succeeded, so the invocation counter was already
incremented when the `RuntimeError` is raised. -/
theorem processToolCalls_cons_missing (reg : Registry) (st : RunState)
    (tc : ToolCallReq) (rest : List ToolCallReq) (args : ToolArgs)
    (hd : pyJsonLoads (argString tc.arguments) = .ok args)
    (hr : reg tc.name = none) :
    processToolCalls reg st (tc :: rest) =
      .fatal ("No handler registered for tool " ++ tc.name)
        { st with toolInvocations := st.toolInvocations + 1 } := by
  simp [processToolCalls, hd, hr]

/-- Unfolding `processToolCalls` at a request whose handler raises. -/
theorem processToolCalls_cons_handlerErr (reg : Registry) (st : RunState)
    (tc : ToolCallReq) (rest : List ToolCallReq) (args : ToolArgs)
    (handler : ToolArgs → Except String String) (e : String)
    (hd : pyJsonLoads (argString tc.arguments) = .ok args)
    (hr : reg tc.name = some handler) (hh : handler args = .error e) :
    processToolCalls reg st (tc :: rest) =
      .fatal e { st with toolInvocations := st.toolInvocations + 1 } := by
  simp [processToolCalls, hd, hr, hh]

/-- Unfolding `processToolCalls` at a request that succeeds: the tool
message and transcript record are appended and the loop continues. -/
theorem processToolCalls_cons_ok (reg : Registry) (st : RunState)
    (tc : ToolCallReq) (rest : List ToolCallReq) (args : ToolArgs)
    (handler : ToolArgs → Except String String) (result : String)
    (hd : pyJsonLoads (argString tc.arguments) = .ok args)
    (hr : reg tc.name = some handler) (hh : handler args = .ok result) :
    processToolCalls reg st (tc :: rest) =
      processToolCalls reg
        { st with
          toolInvocations := st.toolInvocations + 1,
          messages := st.messages ++ [Message.tool tc.id result],
          log := st.log ++ [LogRecord.toolResultRec st.step tc.name result] }
        rest := by
  simp [processToolCalls, hd, hr, hh]

/-- The tool-call phase never changes the step counter, whether it
succeeds or raises. -/
theorem processToolCalls_state_step (reg : Registry) (tcs : List ToolCallReq)
    (st : RunState) : (processToolCalls reg st tcs).state.step = st.step := by
  induction tcs generalizing st with
  | nil => rfl
  | cons tc rest ih =>
      cases hd : pyJsonLoads (argString tc.arguments) with
      | error e =>
          rw [processToolCalls_cons_decodeErr reg st tc rest e hd]
          rfl
      | ok args =>
          cases hr : reg tc.name with
          | none =>
              rw [processToolCalls_cons_missing reg st tc rest args hd hr]
              rfl
          | some handler =>
              cases hh : handler args with
              | error e =>
                  rw [processToolCalls_cons_handlerErr reg st tc rest args handler e hd hr hh]
                  rfl
              | ok result =>
                  rw [processToolCalls_cons_ok reg st tc rest args handler result hd hr hh]
                  exact ih _

/-- The counter order is reflexive. -/
theorem countersLE_refl (st : RunState) : countersLE st st :=
  ⟨le_refl _, le_refl _, le_refl _⟩

/-- The counter order is transitive. -/
theorem countersLE_trans (a b c : RunState) (h₁ : countersLE a b)
    (h₂ : countersLE b c) : countersLE a c :=
  ⟨le_trans h₁.1 h₂.1, le_trans h₁.2.1 h₂.2.1, le_trans h₁.2.2 h₂.2.2⟩

/-- The tool-call phase never decreases a counter, whether it succeeds or
raises. -/
theorem processToolCalls_counters (reg : Registry) (tcs : List ToolCallReq)
    (st : RunState) : countersLE st (processToolCalls reg st tcs).state := by
  induction tcs generalizing st with
  | nil => exact countersLE_refl st
  | cons tc rest ih =>
      cases hd : pyJsonLoads (argString tc.arguments) with
      | error e =>
          rw [processToolCalls_cons_decodeErr reg st tc rest e hd]
          exact countersLE_refl st
      | ok args =>
          cases hr : reg tc.name with
          | none =>
              rw [processToolCalls_cons_missing reg st tc rest args hd hr]
              exact show countersLE st _ from ⟨le_refl _, Nat.le_succ _, le_refl _⟩
          | some handler =>
              cases hh : handler args with
              | error e =>
                  rw [processToolCalls_cons_handlerErr reg st tc rest args handler e hd hr hh]
                  exact show countersLE st _ from ⟨le_refl _, Nat.le_succ _, le_refl _⟩
              | ok result =>
                  rw [processToolCalls_cons_ok reg st tc rest args handler result hd hr hh]
                  exact countersLE_trans st
                    { st with
                      toolInvocations := st.toolInvocations + 1,
                      messages := st.messages ++ [Message.tool tc.id result],
                      log := st.log ++ [LogRecord.toolResultRec st.step tc.name result] }
                    _ ⟨le_refl _, Nat.le_succ _, le_refl _⟩ (ih _)

/-- Appending a non-`completion` record leaves the completion count
unchanged. -/
theorem completionCount_append_other (log : List LogRecord) (r : LogRecord)
    (h : isCompletionRec r = false) :
    completionCount (log ++ [r]) = completionCount log := by
  simp [completionCount, List.countP_append, List.countP_cons, h]

/-- The tool-call phase writes no `completion` record, whether it
succeeds or raises. -/
theorem processToolCalls_completionCount (reg : Registry)
    (tcs : List ToolCallReq) (st : RunState) :
    completionCount (processToolCalls reg st tcs).state.log =
      completionCount st.log := by
  induction tcs generalizing st with
  | nil => rfl
  | cons tc rest ih =>
      cases hd : pyJsonLoads (argString tc.arguments) with
      | error e =>
          rw [processToolCalls_cons_decodeErr reg st tc rest e hd]
          rfl
      | ok args =>
          cases hr : reg tc.name with
          | none =>
              rw [processToolCalls_cons_missing reg st tc rest args hd hr]
              rfl
          | some handler =>
              cases hh : handler args with
              | error e =>
                  rw [processToolCalls_cons_handlerErr reg st tc rest args handler e hd hr hh]
                  rfl
              | ok result =>
                  rw [processToolCalls_cons_ok reg st tc rest args handler result hd hr hh]
                  rw [ih _]
                  exact completionCount_append_other st.log _ rfl

/-- A tool-call list containing an unregistered name makes the tool-call
phase raise: the loop can neither skip the call nor return to request the
next turn. -/
theorem processToolCalls_fatal_of_missing (reg : Registry)
    (tcs : List ToolCallReq) (st : RunState)
    (h : ∃ tc ∈ tcs, reg tc.name = none) :
    ∃ e st', processToolCalls reg st tcs = .fatal e st' := by
  induction tcs generalizing st with
  | nil => simp at h
  | cons tc rest ih =>
      cases hd : pyJsonLoads (argString tc.arguments) with
      | error e => exact ⟨e, st, processToolCalls_cons_decodeErr reg st tc rest e hd⟩
      | ok args =>
          cases hr : reg tc.name with
          | none =>
              exact ⟨_, _, processToolCalls_cons_missing reg st tc rest args hd hr⟩
          | some handler =>
              cases hh : handler args with
              | error e =>
                  exact ⟨e, _,
                    processToolCalls_cons_handlerErr reg st tc rest args handler e hd hr hh⟩
              | ok result =>
                  have hrest : ∃ tc' ∈ rest, reg tc'.name = none := by
                    rcases h with ⟨tc', htc', hn⟩
                    rcases List.mem_cons.mp htc' with heq | hmem
                    · subst heq; rw [hn] at hr; exact absurd hr (by simp)
                    · exact ⟨tc', hmem, hn⟩
                  rcases ih _ hrest with ⟨e, st', hps⟩
                  exact ⟨e, st',
                    by rw [processToolCalls_cons_ok reg st tc rest args handler result hd hr hh,
                      hps]⟩

/-- The assistant phase advances the step counter by exactly one. -/
theorem assistantPhase_step (st : RunState) (resp : ModelResponse) :
    (assistantPhase st resp).step = st.step + 1 := by
  simp only [assistantPhase]
  split <;> rfl

/-- The assistant phase never decreases a counter. -/
theorem assistantPhase_counters (st : RunState) (resp : ModelResponse) :
    countersLE st (assistantPhase st resp) := by
  simp only [assistantPhase]
  split
  · exact ⟨Nat.le_succ _, le_refl _, le_refl _⟩
  · exact ⟨Nat.le_succ _, le_refl _, Nat.le_succ _⟩

/-- The assistant phase writes no `completion` record. -/
theorem assistantPhase_completionCount (st : RunState) (resp : ModelResponse) :
    completionCount (assistantPhase st resp).log = completionCount st.log := by
  simp only [assistantPhase]
  split <;> exact completionCount_append_other st.log _ rfl

/-- The completion phase writes exactly one `completion` record. -/
theorem completionState_completionCount (st : RunState) (resp : ModelResponse) :
    completionCount (completionState st resp).log = completionCount st.log + 1 := by
  simp [completionState, completionCount, List.countP_append, List.countP_cons,
    isCompletionRec]

/-- Unfolding `runLoop` at a response without tool calls: the terminal
turn. -/
theorem runLoop_cons_noTools (reg : Registry) (st : RunState)
    (resp : ModelResponse) (rest : List ModelResponse)
    (h : resp.toolCalls = []) :
    runLoop reg st (resp :: rest) =
      .finished (completionState (assistantPhase st resp) resp) := by
  simp [runLoop, h]

/-- Unfolding `runLoop` at a response with tool calls. -/
theorem runLoop_cons_tools (reg : Registry) (st : RunState)
    (resp : ModelResponse) (rest : List ModelResponse)
    (h : resp.toolCalls ≠ []) :
    runLoop reg st (resp :: rest) =
      match processToolCalls reg (assistantPhase st resp) resp.toolCalls with
      | .fatal e st' => .fatal e st'
      | .ok st' => runLoop reg st' rest := by
  rw [runLoop]
  rw [if_neg (by simpa [List.isEmpty_iff] using h)]

/-- Over one run, the loop writes exactly one `completion` record when it
terminates normally and none otherwise, on top of whatever the starting
transcript held. -/
theorem runLoop_completionCount (reg : Registry) (script : List ModelResponse)
    (st : RunState) :
    (∀ st', runLoop reg st script = .finished st' →
      completionCount st'.log = completionCount st.log + 1) ∧
    (∀ e st', runLoop reg st script = .fatal e st' →
      completionCount st'.log = completionCount st.log) ∧
    (∀ st', runLoop reg st script = .outOfResponses st' →
      completionCount st'.log = completionCount st.log) := by
  induction script generalizing st with
  | nil =>
      refine ⟨?_, ?_, ?_⟩
      · intro st' h
        simp [runLoop] at h
      · intro e st' h
        simp [runLoop] at h
      · intro st' h
        simp only [runLoop, RunOutcome.outOfResponses.injEq] at h
        rw [← h]
  | cons resp rest ih =>
      by_cases htc : resp.toolCalls = []
      · rw [runLoop_cons_noTools reg st resp rest htc]
        refine ⟨?_, ?_, ?_⟩
        · intro st' h
          rw [RunOutcome.finished.injEq] at h
          rw [← h, completionState_completionCount, assistantPhase_completionCount]
        · intro e st' h
          simp at h
        · intro st' h
          simp at h
      · rw [runLoop_cons_tools reg st resp rest htc]
        cases hps : processToolCalls reg (assistantPhase st resp) resp.toolCalls with
        | fatal e₀ st₀ =>
            have hcount : completionCount st₀.log = completionCount st.log := by
              have hc := processToolCalls_completionCount reg resp.toolCalls
                (assistantPhase st resp)
              rw [hps] at hc
              simpa [assistantPhase_completionCount] using hc
            refine ⟨?_, ?_, ?_⟩
            · intro st' h
              simp at h
            · intro e st' h
              simp only [RunOutcome.fatal.injEq] at h
              rw [← h.2, hcount]
            · intro st' h
              simp at h
        | ok st₀ =>
            have hcount : completionCount st₀.log = completionCount st.log := by
              have hc := processToolCalls_completionCount reg resp.toolCalls
                (assistantPhase st resp)
              rw [hps] at hc
              simpa [assistantPhase_completionCount] using hc
            refine ⟨?_, ?_, ?_⟩
            · intro st' h
              rw [(ih st₀).1 st' h, hcount]
            · intro e st' h
              rw [(ih st₀).2.1 e st' h, hcount]
            · intro st' h
              rw [(ih st₀).2.2 st' h, hcount]

/-- Over one run, no counter ever decreases, whatever the outcome. -/
theorem runLoop_counters (reg : Registry) (script : List ModelResponse)
    (st : RunState) : countersLE st (runLoop reg st script).state := by
  induction script generalizing st with
  | nil => exact countersLE_refl st
  | cons resp rest ih =>
      by_cases htc : resp.toolCalls = []
      · rw [runLoop_cons_noTools reg st resp rest htc]
        exact countersLE_trans st (assistantPhase st resp) _
          (assistantPhase_counters st resp) (countersLE_refl _)
      · rw [runLoop_cons_tools reg st resp rest htc]
        cases hps : processToolCalls reg (assistantPhase st resp) resp.toolCalls with
        | fatal e₀ st₀ =>
            have hc := processToolCalls_counters reg resp.toolCalls
              (assistantPhase st resp)
            rw [hps] at hc
            exact countersLE_trans st (assistantPhase st resp) _
              (assistantPhase_counters st resp) hc
        | ok st₀ =>
            have h₁ := processToolCalls_counters reg resp.toolCalls
              (assistantPhase st resp)
            rw [hps] at h₁
            exact countersLE_trans st (assistantPhase st resp) _
              (assistantPhase_counters st resp)
              (countersLE_trans (assistantPhase st resp) st₀ _ h₁ (ih st₀))

/-- A registry with no handlers, used to evaluate the loop concretely. -/
def regNone : Registry := fun _ => none

/-- A registry with the single always-succeeding tool `tool_a`. -/
def regSample : Registry :=
  fun n => if n = "tool_a" then some (fun _ => Except.ok "res") else none

/-- A response with no tool calls: a terminal turn. -/
def respFinal : ModelResponse := ⟨["wrap up"], some "done", [], some 10, some 20⟩

/-- A response with one `tool_a` call. -/
def respToolCall : ModelResponse :=
  ⟨["need data"], some "calling", [⟨"id1", "tool_a", none⟩], none, none⟩

/-- A response with one call to an unregistered tool. -/
def respUnknown : ModelResponse :=
  ⟨[], none, [⟨"id1", "mystery", none⟩], none, none⟩

/-- A `tool_a` request with a missing argument string. -/
def tcA : ToolCallReq := ⟨"id1", "tool_a", none⟩

/-- A `tool_a` request with an explicit empty-object argument string. -/
def tcB : ToolCallReq := ⟨"id2", "tool_a", some "\x7b\x7d"⟩

/-! Claims. -/

/-- C2 counterexample: `calc_cost(-1, 0)` returns a strictly negative
input-cost component — the negative prompt-token count is neither rejected
(the function is total and performs no check) nor treated as zero (the
result differs from `calc_cost(0, 0)`), so the calculator does return a
cost computed from a negative count. -/
theorem calc_cost_negative_count_counterexample :
    (calc_cost (-1) 0).1 < 0 ∧ calc_cost (-1) 0 ≠ calc_cost 0 0 := by
  constructor
  · show (-1 : ℚ) * COST_PER_INPUT_TOKEN < 0
    norm_num [COST_PER_INPUT_TOKEN]
  · intro h
    have h1 : (-1 : ℚ) * COST_PER_INPUT_TOKEN = 0 * COST_PER_INPUT_TOKEN :=
      congrArg Prod.fst h
    norm_num [COST_PER_INPUT_TOKEN] at h1

/-- C2 (amended): `calc_cost` performs no input validation — it applies
the linear rate formula to any integer counts, so a negative prompt-token
count yields a strictly negative input cost and a negative
completion-token count yields a strictly negative output cost; the third
component is always the sum of the first two. -/
theorem calc_cost_no_validation (p c : Int) :
    (p < 0 → (calc_cost p c).1 < 0) ∧
    (c < 0 → (calc_cost p c).2.1 < 0) ∧
    (calc_cost p c).2.2 = (calc_cost p c).1 + (calc_cost p c).2.1 := by
  refine ⟨fun hp => ?_, fun hc => ?_, rfl⟩
  · show (p : ℚ) * COST_PER_INPUT_TOKEN < 0
    have hp' : (p : ℚ) < 0 := by exact_mod_cast hp
    exact mul_neg_of_neg_of_pos hp' (by norm_num [COST_PER_INPUT_TOKEN])
  · show (c : ℚ) * COST_PER_OUTPUT_TOKEN < 0
    have hc' : (c : ℚ) < 0 := by exact_mod_cast hc
    exact mul_neg_of_neg_of_pos hc' (by norm_num [COST_PER_OUTPUT_TOKEN])

/-- C2 witness: the amended claim evaluated at the counts `(-1, -1)`. -/
theorem calc_cost_no_validation_witness :
    (calc_cost (-1) (-1)).1 < 0 ∧ (calc_cost (-1) (-1)).2.1 < 0 :=
  ⟨(calc_cost_no_validation (-1) (-1)).1 (by norm_num),
   (calc_cost_no_validation (-1) (-1)).2.1 (by norm_num)⟩

/-- C6: a missing (`None`) or empty tool-call argument string decodes to
the empty argument object, never to a fatal decode error — line 249 of
src/demo_runner.py replaces both by the empty-object literal before
calling `json.loads`. -/
theorem empty_arguments_decode_to_empty_object :
    pyJsonLoads (argString none) = .ok [] ∧
    pyJsonLoads (argString (some "")) = .ok [] := by
  exact ⟨rfl, rfl⟩

/-- C8: against a component-specs document containing a `## Button`
section, `get_component_spec "button"` returns a JSON payload whose
`component` field is `"Button"` and whose `spec` field is non-empty and at
most 1600 characters (the source truncates with `[:1600]`). -/
theorem button_spec_payload :
    strContains componentSpecsDoc "## Button" = true ∧
    ∃ s, (get_component_spec componentSpecsDoc "button").map specPayload =
        some ⟨"Button", s⟩ ∧ s ≠ "" ∧ s.length ≤ 1600 := by
  refine ⟨by decide,
    "Variants: primary, secondary, ghost.\nSizes: sm, md, lg.\nStates: default, hover, active, disabled, loading.",
    rfl, by decide, by decide⟩

/-- C1 counterexample: with a document whose only section key is
`colors`, the argument `"zzz"` matches no section, and
`get_pattern_guidance` returns its fixed not-found payload
`No matching pattern found.` — a message that does not list the available
section key `colors`.  So it is not true that every tool's not-found
payload lists the available section keys. -/
theorem pattern_not_found_message_omits_keys :
    load_markdown_sections docColors = [("colors", "primary: blue")] ∧
    get_pattern_guidance docColors "zzz" = .notFound "zzz" ∧
    patternPayload (get_pattern_guidance docColors "zzz") =
      ⟨"zzz", "No matching pattern found."⟩ ∧
    strContains (patternPayload (get_pattern_guidance docColors "zzz")).guidance
      "colors" = false := by
  exact ⟨rfl, rfl, rfl, by decide⟩

/-- C1 (amended): every tool, invoked with an argument matching no section
of its document, returns its not-found JSON payload without raising — for
`get_component_spec` provided every block of the document's split on
`## ` is non-empty (an empty block makes the Python raise `ValueError`
instead).  Only `get_design_tokens`'s message lists the available section
keys; `get_component_spec` and `get_pattern_guidance` return fixed
not-found messages that do not mention the keys. -/
theorem tools_not_found_payloads :
    (∀ doc category,
        (∀ kv ∈ load_markdown_sections doc,
            strContains kv.1 (pyLower category) = false) →
        tokensPayload (get_design_tokens doc category) =
          ⟨"not_found",
            availableMsg category ((load_markdown_sections doc).map Prod.fst)⟩) ∧
    (∀ doc topic,
        (∀ kv ∈ load_markdown_sections doc,
            strContains kv.1 (pyLower topic) = false ∧
            strContains (pyLower kv.2) (pyLower topic) = false) →
        patternPayload (get_pattern_guidance doc topic) =
          ⟨topic, "No matching pattern found."⟩) ∧
    (∀ doc component,
        (∀ b ∈ pySplitHH doc, pySplitlines b ≠ []) →
        (∀ b ∈ pySplitHH doc,
            pyStartsWith (pyLower (pyStrip ((pySplitlines b).headD "")))
              (pyLower (pyStrip component)) = false) →
        (get_component_spec doc component).map specPayload =
          some ⟨component, "Component not found in specs document."⟩) := by
  refine ⟨fun doc category h => ?_, fun doc topic h => ?_,
    fun doc component h1 h2 => ?_⟩
  · have hn : (load_markdown_sections doc).find?
        (fun kv => strContains kv.1 (pyLower category)) = none :=
      List.find?_eq_none.mpr (fun kv hkv => by simp [h kv hkv])
    simp [get_design_tokens, hn, tokensPayload]
  · have hn : (load_markdown_sections doc).find?
        (fun kv => strContains kv.1 (pyLower topic) ||
          strContains (pyLower kv.2) (pyLower topic)) = none :=
      List.find?_eq_none.mpr (fun kv hkv => by simp [(h kv hkv).1, (h kv hkv).2])
    simp [get_pattern_guidance, hn, patternPayload]
  · have := specScan_notFound (pyLower (pyStrip component)) component
      (pySplitHH doc) h1 h2
    simp [get_component_spec, this, specPayload]

/-- C1 witness: the amended claim evaluated at concrete documents and
non-matching arguments, one instance per tool. -/
theorem tools_not_found_payloads_witness :
    tokensPayload (get_design_tokens docColors "zzz") =
      ⟨"not_found",
        availableMsg "zzz" ((load_markdown_sections docColors).map Prod.fst)⟩ ∧
    patternPayload (get_pattern_guidance docColors "qqq") =
      ⟨"qqq", "No matching pattern found."⟩ ∧
    (get_component_spec docSpecsSmall "zzz").map specPayload =
      some ⟨"zzz", "Component not found in specs document."⟩ :=
  ⟨tools_not_found_payloads.1 docColors "zzz" (by decide),
   tools_not_found_payloads.2.1 docColors "qqq" (by decide),
   tools_not_found_payloads.2.2 docSpecsSmall "zzz" (by decide) (by decide)⟩

/-- C10 counterexample: the document `## Button\nClick me` yields the
non-empty section `button`, yet `get_component_spec` invoked on it with
the empty string raises (`none` models the `ValueError` from unpacking
the empty first block of the split) instead of returning a
matched-section payload. -/
theorem empty_component_query_crash_counterexample :
    load_markdown_sections "## Button\nClick me" = [("button", "Click me")] ∧
    get_component_spec "## Button\nClick me" "" = none := by
  exact ⟨rfl, rfl⟩

/-- C10 (amended): with the empty string as argument,
`get_design_tokens` and `get_pattern_guidance` return the matched payload
of the first parsed section whenever one exists (the empty string occurs
in every key), and `get_component_spec` returns a matched payload of the
first block with a non-empty header provided every block of the split is
non-empty — on a document whose split contains an empty block it raises
instead. -/
theorem empty_query_matches_first_section :
    (∀ doc k v rest, load_markdown_sections doc = (k, v) :: rest →
        get_design_tokens doc "" = .found k (pyTake v 1200)) ∧
    (∀ doc k v rest, load_markdown_sections doc = (k, v) :: rest →
        get_pattern_guidance doc "" = .found k (pyTake v 1600)) ∧
    (∀ doc, (∀ b ∈ pySplitHH doc, pySplitlines b ≠ []) →
        (∃ b ∈ pySplitHH doc, (pySplitlines b).headD "" ≠ "") →
        ∃ k s, get_component_spec doc "" = some (.found k s)) := by
  refine ⟨fun doc k v rest h => ?_, fun doc k v rest h => ?_, fun doc h1 h2 => ?_⟩
  · simp [get_design_tokens, h, List.find?, strContains_empty,
      show pyLower "" = "" from rfl]
  · simp [get_pattern_guidance, h, List.find?, strContains_empty,
      show pyLower "" = "" from rfl]
  · have := specScan_found_empty_query "" (pySplitHH doc) h1 h2
    simpa [get_component_spec] using this

/-- C3 counterexample: a script whose first response issues one tool call
and whose only later response issues none satisfies the claim's
hypothesis, and the loop does terminate — but only after two turns, not
exactly one. -/
theorem loop_two_turns_counterexample :
    (∀ r ∈ [respToolCall, respFinal].tail, r.toolCalls = []) ∧
    (runLoop regSample (initialState "s" "u") [respToolCall, respFinal]).isFinished
      = true ∧
    (runLoop regSample (initialState "s" "u")
      [respToolCall, respFinal]).state.step = 2 := by
  refine ⟨?_, rfl, rfl⟩
  intro r hr
  simp only [List.tail_cons, List.mem_singleton] at hr
  subst hr
  rfl

/-- C3 (amended): for any script in which every response after the first
carries zero tool calls, the loop terminates within two turns; it
terminates after exactly one turn precisely when the first response also
carries zero tool calls. -/
theorem loop_terminates_within_two_turns (reg : Registry) (sp up : String)
    (script : List ModelResponse)
    (h : ∀ r ∈ script.tail, r.toolCalls = []) :
    (runLoop reg (initialState sp up) script).state.step ≤ 2 ∧
    (∀ r rest, script = r :: rest → r.toolCalls = [] →
      ∃ st, runLoop reg (initialState sp up) script = .finished st ∧
        st.step = 1) := by
  constructor
  · cases script with
    | nil =>
        show (RunOutcome.outOfResponses (initialState sp up)).state.step ≤ 2
        simp [RunOutcome.state, initialState]
    | cons r rest =>
        by_cases hr : r.toolCalls = []
        · rw [runLoop_cons_noTools reg _ r rest hr]
          simp only [RunOutcome.state]
          show (assistantPhase (initialState sp up) r).step ≤ 2
          rw [assistantPhase_step]
          simp [initialState]
        · rw [runLoop_cons_tools reg _ r rest hr]
          cases hps : processToolCalls reg (assistantPhase (initialState sp up) r)
            r.toolCalls with
          | fatal e st₀ =>
              have hs := processToolCalls_state_step reg r.toolCalls
                (assistantPhase (initialState sp up) r)
              rw [hps] at hs
              simp only [ToolPhase.state] at hs
              simp only [RunOutcome.state]
              rw [hs, assistantPhase_step]
              simp [initialState]
          | ok st₀ =>
              have hs := processToolCalls_state_step reg r.toolCalls
                (assistantPhase (initialState sp up) r)
              rw [hps] at hs
              simp only [ToolPhase.state] at hs
              rw [assistantPhase_step] at hs
              have hstep : st₀.step = 1 := by
                rw [hs]
                rfl
              cases rest with
              | nil =>
                  show (RunOutcome.outOfResponses st₀).state.step ≤ 2
                  simp [RunOutcome.state, hstep]
              | cons r₂ rest₂ =>
                  have hr₂ : r₂.toolCalls = [] :=
                    h r₂ (by simp)
                  show (runLoop reg st₀ (r₂ :: rest₂)).state.step ≤ 2
                  rw [runLoop_cons_noTools reg st₀ r₂ rest₂ hr₂]
                  simp only [RunOutcome.state]
                  show (assistantPhase st₀ r₂).step ≤ 2
                  rw [assistantPhase_step, hstep]
  · intro r rest heq hr
    subst heq
    refine ⟨completionState (assistantPhase (initialState sp up) r) r,
      runLoop_cons_noTools reg _ r rest hr, ?_⟩
    show (assistantPhase (initialState sp up) r).step = 1
    rw [assistantPhase_step]
    rfl

/-- C3 witness: the amended claim evaluated at a one-response script whose
single response carries no tool calls. -/
theorem loop_terminates_within_two_turns_witness :
    (runLoop regSample (initialState "s" "u") [respFinal]).state.step ≤ 2 ∧
    ∃ st, runLoop regSample (initialState "s" "u") [respFinal] = .finished st ∧
      st.step = 1 :=
  ⟨(loop_terminates_within_two_turns regSample "s" "u" [respFinal] (by decide)).1,
   (loop_terminates_within_two_turns regSample "s" "u" [respFinal] (by decide)).2
     respFinal [] rfl (by decide)⟩

/-- C4: a model response containing a tool-call request whose name is not
registered makes the loop raise within that turn — the step counter of
the failing state is still that turn's — so the call is never skipped and
the loop never reaches another tool call of a later turn. -/
theorem unknown_tool_fatal (reg : Registry) (sp up : String)
    (resp : ModelResponse) (rest : List ModelResponse)
    (h : ∃ tc ∈ resp.toolCalls, reg tc.name = none) :
    ∃ e st, runLoop reg (initialState sp up) (resp :: rest) = .fatal e st ∧
      st.step = 1 := by
  have hne : resp.toolCalls ≠ [] := by
    rcases h with ⟨tc, htc, _⟩
    exact List.ne_nil_of_mem htc
  rw [runLoop_cons_tools reg _ resp rest hne]
  rcases processToolCalls_fatal_of_missing reg resp.toolCalls
    (assistantPhase (initialState sp up) resp) h with ⟨e, st', hps⟩
  have hs := processToolCalls_state_step reg resp.toolCalls
    (assistantPhase (initialState sp up) resp)
  rw [hps] at hs
  simp only [ToolPhase.state] at hs
  refine ⟨e, st', ?_, ?_⟩
  · rw [hps]
  · rw [hs, assistantPhase_step]
    rfl

/-- C4 witness: the loop raises on a concrete script whose first response
calls the unregistered tool `mystery`. -/
theorem unknown_tool_fatal_witness :
    ∃ e st, runLoop regNone (initialState "s" "u") [respUnknown] = .fatal e st ∧
      st.step = 1 :=
  unknown_tool_fatal regNone "s" "u" respUnknown []
    ⟨⟨"id1", "mystery", none⟩, by decide, rfl⟩

/-- C5: when every tool invocation of a turn succeeds, the tool-call
phase appends exactly one tool message per request, in request order, the
i-th carrying the identifier of the i-th request together with its tool's
result — and the transcript gains the matching `tool_result` records in
the same order. -/
theorem tool_messages_match_requests (reg : Registry) (st : RunState)
    (tcs : List ToolCallReq)
    (h : ∀ tc ∈ tcs, (callTool reg tc).isSome = true) :
    ∃ st', processToolCalls reg st tcs = .ok st' ∧
      st'.messages = st.messages ++
        tcs.map (fun tc => Message.tool tc.id ((callTool reg tc).getD "")) ∧
      st'.log = st.log ++
        tcs.map (fun tc => LogRecord.toolResultRec st.step tc.name
          ((callTool reg tc).getD "")) := by
  induction tcs generalizing st with
  | nil => exact ⟨st, rfl, by simp, by simp⟩
  | cons tc rest ih =>
      have htc := h tc (List.mem_cons_self tc rest)
      cases hd : pyJsonLoads (argString tc.arguments) with
      | error e => simp [callTool, hd] at htc
      | ok args =>
          cases hr : reg tc.name with
          | none => simp [callTool, hd, hr] at htc
          | some handler =>
              cases hh : handler args with
              | error e => simp [callTool, hd, hr, hh] at htc
              | ok result =>
                  have hct : callTool reg tc = some result := by
                    simp [callTool, hd, hr, hh]
                  obtain ⟨st', hps, hmsg, hlog⟩ :=
                    ih { st with
                        toolInvocations := st.toolInvocations + 1,
                        messages := st.messages ++ [Message.tool tc.id result],
                        log := st.log ++
                          [LogRecord.toolResultRec st.step tc.name result] }
                      (fun x hx => h x (List.mem_cons_of_mem tc hx))
                  refine ⟨st', ?_, ?_, ?_⟩
                  · rw [processToolCalls_cons_ok reg st tc rest args handler result hd hr hh]
                    exact hps
                  · rw [hmsg]
                    simp [hct, List.append_assoc]
                  · rw [hlog]
                    simp [hct, List.append_assoc]

/-- C5 witness: the tool-message correspondence evaluated for a turn with
two succeeding tool calls. -/
theorem tool_messages_match_requests_witness :
    ∃ st', processToolCalls regSample (initialState "s" "u") [tcA, tcB] = .ok st' ∧
      st'.messages = (initialState "s" "u").messages ++
        [tcA, tcB].map (fun tc => Message.tool tc.id
          ((callTool regSample tc).getD "")) ∧
      st'.log = (initialState "s" "u").log ++
        [tcA, tcB].map (fun tc => LogRecord.toolResultRec
          (initialState "s" "u").step tc.name ((callTool regSample tc).getD "")) :=
  tool_messages_match_requests regSample (initialState "s" "u") [tcA, tcB]
    (by decide)

/-- C7: a run that reaches a turn without tool calls carries exactly one
`completion` transcript record, and a run aborted by a fatal error — or
cut off waiting for the endpoint — carries none. -/
theorem completion_record_iff_success (reg : Registry) (sp up : String)
    (script : List ModelResponse) :
    (∀ st, runLoop reg (initialState sp up) script = .finished st →
      completionCount st.log = 1) ∧
    (∀ e st, runLoop reg (initialState sp up) script = .fatal e st →
      completionCount st.log = 0) ∧
    (∀ st, runLoop reg (initialState sp up) script = .outOfResponses st →
      completionCount st.log = 0) := by
  have h := runLoop_completionCount reg script (initialState sp up)
  have h0 : completionCount (initialState sp up).log = 0 := rfl
  refine ⟨fun st hst => ?_, fun e st hst => ?_, fun st hst => ?_⟩
  · rw [h.1 st hst, h0]
  · rw [h.2.1 e st hst, h0]
  · rw [h.2.2 st hst, h0]

/-- C7 witness: one successful run with exactly one `completion` record
and one fatally aborted run with none. -/
theorem completion_record_iff_success_witness :
    completionCount ((runLoop regNone (initialState "s" "u") [respFinal]).state).log
      = 1 ∧
    completionCount ((runLoop regNone (initialState "s" "u") [respUnknown]).state).log
      = 0 := by
  constructor
  · exact (completion_record_iff_success regNone "s" "u" [respFinal]).1 _ rfl
  · exact (completion_record_iff_success regNone "s" "u" [respUnknown]).2.1
      "No handler registered for tool mystery" _ rfl

/-- C9: the step, tool-invocation and thinking-segment counters all start
at zero at the beginning of a run, and neither the tool-call phase nor
any number of loop iterations ever decreases any of them. -/
theorem run_counters_monotone :
    (∀ sp up, (initialState sp up).step = 0 ∧
      (initialState sp up).toolInvocations = 0 ∧
      (initialState sp up).thinkingSegments = 0) ∧
    (∀ (reg : Registry) (st : RunState) (tcs : List ToolCallReq),
      countersLE st (processToolCalls reg st tcs).state) ∧
    (∀ (reg : Registry) (st : RunState) (script : List ModelResponse),
      countersLE st (runLoop reg st script).state) :=
  ⟨fun _ _ => ⟨rfl, rfl, rfl⟩,
   fun reg st tcs => processToolCalls_counters reg tcs st,
   fun reg st script => runLoop_counters reg script st⟩

/-- C10 witness: the amended claim evaluated at concrete documents, one
instance per tool. -/
theorem empty_query_matches_first_section_witness :
    get_design_tokens docColors "" = .found "colors" (pyTake "primary: blue" 1200) ∧
    get_pattern_guidance docColors "" = .found "colors" (pyTake "primary: blue" 1600) ∧
    ∃ k s, get_component_spec docSpecsSmall "" = some (.found k s) :=
  ⟨empty_query_matches_first_section.1 docColors "colors" "primary: blue" [] rfl,
   empty_query_matches_first_section.2.1 docColors "colors" "primary: blue" [] rfl,
   empty_query_matches_first_section.2.2 docSpecsSmall (by decide) (by decide)⟩

end MiniMaxDemo
